import Mathlib

/-!
Verification development for the `logbook_solver` Python package
(src/apps/solver-python/logbook_solver/): a shallow embedding of the
CP-SAT model builder (core.py, constraints.py, objective.py,
diagnostics.py, main.py) and proofs about the constraint model it builds.

Conventions of the embedding:
* Python dicts holding the input document become Lean structures; a key
  that may be missing becomes an `Option` field (with `none` meaning the
  key is absent).
* Minute/hour/count fields are `Nat` (the spec requires them inside
  [0, 1440]); `baseSlotMinutes` is `Int` so that the sanitizer's
  negative-value branch is faithfully represented; float weights are `ℚ`.
* The CP-SAT model is embedded as the list of linear constraints the
  builders attach, over boolean variables keyed by (crewId, slot, role).
  Raising `ValueError` becomes returning `Except.error`.
* Python `a // b` on the naturals used here is `Nat` division, and
  `math.ceil(a / b)` for naturals is `(a + b - 1) / b`.
-/

namespace LB

/-- Variable key: (crew id, slot index, role code), mirroring the keys of
`LogbookSolver.x` in core.py. -/
abbrev VKey := String × Nat × String

/-- One entry of the `roleMetadata` input array (core.py reads it with
`.get`, so every field other than `role` is optional). -/
structure RoleMeta where
  role : String
  isUniversal : Option Bool := none
  isBreakRole : Option Bool := none
  isParkingRole : Option Bool := none
  allowOutsideStoreHours : Option Bool := none
  slotSizeMode : Option String := none
  blockSize : Option Nat := none
  minSlots : Option Int := none
  maxSlots : Option Int := none
  minMinutesPerCrew : Option ℚ := none
  maxMinutesPerCrew : Option ℚ := none
  slotsMustBeConsecutive : Option Bool := none
  isConsecutive : Option Bool := none
deriving DecidableEq

/-- One entry of the `crew` input array.  `legacyRoles` stands for the
role codes extracted from the legacy `roles` list of dicts in
`_crew_roles` (core.py). -/
structure Crew where
  id : String
  name : Option String := none
  shiftStartMin : Nat
  shiftEndMin : Nat
  eligibleRoles : List String := []
  legacyRoles : List String := []
  canBreak : Option Bool := none
  canParkingHelms : Option Bool := none
  minRegisterHours : Option ℚ := none
  maxRegisterHours : Option ℚ := none
deriving DecidableEq

/-- One entry of `hourlyRequirements`; the three counts are read with
`.get(..., 0)` in constraints.py, hence the defaults. -/
structure HourlyReq where
  hour : Nat
  requiredRegister : Nat := 0
  requiredProduct : Nat := 0
  requiredParkingHelm : Nat := 0
deriving DecidableEq

/-- One entry of `crewRoleRequirements`. -/
structure CrewRoleReq where
  crewId : String
  role : String
  requiredHours : Nat
deriving DecidableEq

/-- One entry of `coverageWindows`. -/
structure CoverageWindow where
  role : String
  startHour : Nat
  endHour : Nat
  requiredPerHour : Nat
deriving DecidableEq

/-- The `store` object of the input document. -/
structure Store where
  baseSlotMinutes : Option Int := none
  openMinutesFromMidnight : Option Nat := none
  closeMinutesFromMidnight : Option Nat := none
  startRegHour : Option Nat := none
  endRegHour : Option Nat := none
  minShiftMinutesForBreak : Option Nat := none
  breakWindowStartOffsetMinutes : Option Nat := none
  breakWindowEndOffsetMinutes : Option Nat := none
deriving DecidableEq

/-- The input document (the fields `LogbookSolver.__init__` reads; `date`
and `timeLimitSeconds` do not influence the model and are omitted). -/
structure Input where
  store : Store := {}
  crew : List Crew := []
  hourlyRequirements : List HourlyReq := []
  crewRoleRequirements : List CrewRoleReq := []
  coverageWindows : List CoverageWindow := []
  roleMetadata : List RoleMeta := []
deriving DecidableEq

/-- A raised Python exception. -/
inductive PyError where
  | valueError (msg : String)
  | attributeError (attrName : String)
deriving DecidableEq

/-- core.py `_sanitize_slot_minutes`.  Note the Python truthiness test
`int(slot_minutes) if slot_minutes else 30`: the value 0 is falsy and is
replaced by the default 30 before any validation runs. -/
def sanitizeSlotMinutes (slotMinutes : Int) : Except PyError Int :=
  let value : Int := if slotMinutes = 0 then 30 else slotMinutes
  if value ≤ 0 then
    .error (.valueError "Store baseSlotMinutes must be positive")
  else if 60 % value ≠ 0 then
    .error (.valueError "Store baseSlotMinutes must divide 60 for hourly requirements")
  else
    .ok value

/-- `math.ceil(a / b)` for naturals with `b > 0`. -/
def ceilDiv (a b : Nat) : Nat := (a + b - 1) / b

/-- Floor of a rational as an integer (`q.num.fdiv q.den` floors because
the denominator is positive); used for Python `math.floor` on floats. -/
def ratFloor (q : ℚ) : Int := q.num.fdiv q.den

/-- Ceiling of a rational as an integer; used for Python `math.ceil`. -/
def ratCeil (q : ℚ) : Int := -((-q).num.fdiv (-q).den)

/-- The context the constraint and objective builders work over: the raw
input plus the derived fields computed in `LogbookSolver.__init__`
(core.py lines 34-47). -/
structure Ctx where
  inp : Input
  slotMinutes : Nat
  numSlots : Nat
  slotsPerHour : Nat
  openMinutes : Nat
  closeMinutes : Nat
  regStart : Nat
  regEnd : Nat
deriving DecidableEq

/-- Derived fields of `__init__` given the sanitized slot length
(core.py lines 34-47): slot counts, open/close defaults, and the clamped
register window. -/
def ctxOf (inp : Input) (m : Nat) : Ctx :=
  let numSlots := (24 * 60) / m
  let slotsPerHour := 60 / m
  let openM := inp.store.openMinutesFromMidnight.getD 0
  let closeM := inp.store.closeMinutesFromMidnight.getD (24 * 60)
  let regStart0 := inp.store.startRegHour.getD openM
  let regEnd0 := inp.store.endRegHour.getD closeM
  let regStart := min (max openM regStart0) closeM
  let regEnd1 := min (max openM regEnd0) closeM
  let regEnd := if regEnd1 ≤ regStart then min closeM (regStart + m) else regEnd1
  { inp := inp, slotMinutes := m, numSlots := numSlots, slotsPerHour := slotsPerHour,
    openMinutes := openM, closeMinutes := closeM, regStart := regStart, regEnd := regEnd }

/-- `LogbookSolver.__init__` up to and including the derived time fields:
sanitize the slot length (possibly raising), then compute the context. -/
def mkCtx (inp : Input) : Except PyError Ctx :=
  match sanitizeSlotMinutes (inp.store.baseSlotMinutes.getD 30) with
  | .error e => .error e
  | .ok v => .ok (ctxOf inp v.toNat)

/-- The default-universal role set of core.py (`_default_universal_roles`). -/
def defaultUniversalRoles : List String := ["REGISTER", "PRODUCT", "PARKING_HELM", "MEAL_BREAK"]

/-- core.py `_crew_roles`: the eligible roles when that list is truthy
(non-empty), else the legacy role codes. -/
def crewRolesOf (c : Crew) : List String :=
  if c.eligibleRoles.isEmpty then c.legacyRoles else c.eligibleRoles

/-- core.py `_index_roles`: the active role set is the union of every
crew member's roles with the default universal roles (a Python `set`;
embedded as a deduplicated list, membership is what matters). -/
def rolesList (inp : Input) : List String :=
  (inp.crew.flatMap crewRolesOf ++ defaultUniversalRoles).dedup

/-- core.py `role_meta_map`: a dict keyed by role where a later entry for
the same role overwrites an earlier one. -/
def roleMetaFor (inp : Input) (r : String) : Option RoleMeta :=
  (inp.roleMetadata.filter (fun mt => mt.role == r)).getLast?

/-- The key set of `role_meta_map` in iteration order (first occurrence
of each role). -/
def metaRoles (inp : Input) : List String :=
  (inp.roleMetadata.map (fun mt => mt.role)).dedup

/-- core.py `_is_universal_role`: an explicit `isUniversal` entry wins,
otherwise membership in the default universal set. -/
def isUniversalRole (inp : Input) (r : String) : Bool :=
  match roleMetaFor inp r with
  | some mt =>
    match mt.isUniversal with
    | some b => b
    | none => decide (r ∈ defaultUniversalRoles)
  | none => decide (r ∈ defaultUniversalRoles)

/-- core.py `_is_break_role`. -/
def isBreakRoleB (inp : Input) (r : String) : Bool :=
  match roleMetaFor inp r with
  | some mt =>
    match mt.isBreakRole with
    | some b => b
    | none => r == "MEAL_BREAK"
  | none => r == "MEAL_BREAK"

/-- core.py `_break_roles`: metadata-flagged break roles, else the
default `MEAL_BREAK`. -/
def breakRolesList (inp : Input) : List String :=
  let flagged := (metaRoles inp).filter
    (fun r => ((roleMetaFor inp r).bind (fun mt => mt.isBreakRole)).getD false)
  if flagged.isEmpty then ["MEAL_BREAK"] else flagged

/-- core.py `_parking_roles`: metadata-flagged parking roles, else the
default `PARKING_HELM`. -/
def parkingRolesList (inp : Input) : List String :=
  let flagged := (metaRoles inp).filter
    (fun r => ((roleMetaFor inp r).bind (fun mt => mt.isParkingRole)).getD false)
  if flagged.isEmpty then ["PARKING_HELM"] else flagged

/-- core.py `_role_allows_outside_hours`. -/
def allowsOutsideHours (inp : Input) (r : String) : Bool :=
  ((roleMetaFor inp r).bind (fun mt => mt.allowOutsideStoreHours)).getD false

/-- constraints.py `_block_size_snap`'s `role_meta.get('blockSize', 1)`. -/
def blockSizeOf (inp : Input) (r : String) : Nat :=
  ((roleMetaFor inp r).bind (fun mt => mt.blockSize)).getD 1

/-- The crew id list (core.py `_index_crew`). -/
def crewIds (inp : Input) : List String := inp.crew.map (fun c => c.id)

/-- core.py `crew_by_id`: a dict keyed by id, later entries overwriting
earlier ones. -/
def crewById (inp : Input) (cid : String) : Option Crew :=
  inp.crew.reverse.find? (fun c => c.id == cid)

/-- core.py `_slot_start_minute`. -/
def slotStartMinute (ctx : Ctx) (slot : Nat) : Nat := slot * ctx.slotMinutes

/-- core.py `_slot_inside_store_hours`. -/
def insideStoreHours (ctx : Ctx) (slot : Nat) : Bool :=
  decide (ctx.openMinutes ≤ slotStartMinute ctx slot ∧ slotStartMinute ctx slot < ctx.closeMinutes)

/-- core.py `_slot_inside_register_window`. -/
def insideRegWindow (ctx : Ctx) (slot : Nat) : Bool :=
  decide (ctx.regStart ≤ slotStartMinute ctx slot ∧ slotStartMinute ctx slot < ctx.regEnd)

/-- core.py `_minutes_to_slot_floor` (the `max 0` is the identity on `Nat`). -/
def minutesToSlotFloor (ctx : Ctx) (minutes : Nat) : Nat := minutes / ctx.slotMinutes

/-- core.py `_minutes_to_slot_ceil`. -/
def minutesToSlotCeil (ctx : Ctx) (minutes : Nat) : Nat := ceilDiv minutes ctx.slotMinutes

/-- core.py `_hour_slots`. -/
def hourSlots (ctx : Ctx) (hour : Nat) : List Nat :=
  let start := hour * ctx.slotsPerHour
  List.range' start (min (start + ctx.slotsPerHour) ctx.numSlots - start)

/-- Shift start slot as used by `_build_decision_variables` (floor). -/
def shiftStartSlotV (ctx : Ctx) (c : Crew) : Nat := minutesToSlotFloor ctx c.shiftStartMin

/-- Shift end slot as used by `_build_decision_variables`: ceiling,
clamped to the slot count. -/
def shiftEndSlotV (ctx : Ctx) (c : Crew) : Nat :=
  min (minutesToSlotCeil ctx c.shiftEndMin) ctx.numSlots

/-- Shift start slot as recomputed inside every constraints.py builder:
`crew['shiftStartMin'] // slot_minutes`. -/
def shiftStartSlotF (ctx : Ctx) (c : Crew) : Nat := c.shiftStartMin / ctx.slotMinutes

/-- Shift end slot as recomputed inside every constraints.py builder:
`crew['shiftEndMin'] // slot_minutes` (floor, not the ceiling used when
the variables were built). -/
def shiftEndSlotF (ctx : Ctx) (c : Crew) : Nat := c.shiftEndMin / ctx.slotMinutes

/-- The guard of `_build_decision_variables` (core.py lines 104-112) for
one role at one slot of a crew member's shift. -/
def varGuard (ctx : Ctx) (c : Crew) (slot : Nat) (r : String) : Bool :=
  (isUniversalRole ctx.inp r || decide (r ∈ crewRolesOf c)) &&
  (insideStoreHours ctx slot || allowsOutsideHours ctx.inp r) &&
  (!(r == "REGISTER") || insideRegWindow ctx slot)

/-- core.py `_build_decision_variables`: the key set of the decision
variable dict `x`, enumerated exactly as the Python loops do. -/
def xKeys (ctx : Ctx) : List VKey :=
  (crewIds ctx.inp).flatMap (fun cid =>
    match crewById ctx.inp cid with
    | none => []
    | some c =>
      (List.range' (shiftStartSlotV ctx c) (shiftEndSlotV ctx c - shiftStartSlotV ctx c)).flatMap
        (fun slot =>
          ((rolesList ctx.inp).filter (fun r => varGuard ctx c slot r)).map
            (fun r => (cid, slot, r))))

/-- Membership in the decision-variable dict (`key in solver.x`). -/
def hasVar (ctx : Ctx) (k : VKey) : Bool := decide (k ∈ xKeys ctx)

/-!  The linear constraints attached by constraints.py, as abstract
syntax over the boolean decision variables. -/

/-- One CP-SAT constraint as attached by constraints.py:
`m.Add(sum(vars) == rhs)`, `m.Add(sum(vars) >= rhs)`,
`m.Add(sum(vars) <= rhs)`, `m.Add(a == b)`, `m.Add(a + b <= 1)` and
`m.Add(a == 0)` respectively. -/
inductive Constr where
  | eqSum (vars : List VKey) (rhs : Int)
  | geSum (vars : List VKey) (rhs : Int)
  | leSum (vars : List VKey) (rhs : Int)
  | eqVar (a b : VKey)
  | addLeOne (a b : VKey)
  | pinZero (k : VKey)
deriving DecidableEq

/-- Value of a boolean variable under an assignment, as the integer the
linear constraints see. -/
def boolVal (σ : VKey → Bool) (k : VKey) : Int := if σ k then 1 else 0

/-- Value of a sum of variables under an assignment. -/
def sumVal (σ : VKey → Bool) (l : List VKey) : Int := (l.map (boolVal σ)).sum

/-- Satisfaction of one constraint by an assignment. -/
def satC (σ : VKey → Bool) : Constr → Bool
  | .eqSum l r => decide (sumVal σ l = r)
  | .geSum l r => decide (r ≤ sumVal σ l)
  | .leSum l r => decide (sumVal σ l ≤ r)
  | .eqVar a b => σ a == σ b
  | .addLeOne a b => decide (boolVal σ a + boolVal σ b ≤ 1)
  | .pinZero k => σ k == false

/-- Satisfaction of a constraint list. -/
def satAll (σ : VKey → Bool) (cs : List Constr) : Bool := cs.all (satC σ)

/-- Sequence a fallible constraint generator over a list, concatenating
the produced constraints; the first raised error aborts (Python
exception propagation out of a loop). -/
def collectE {α : Type} (f : α → Except PyError (List Constr)) : List α → Except PyError (List Constr)
  | [] => .ok []
  | a :: as =>
    match f a with
    | .error e => .error e
    | .ok cs =>
      match collectE f as with
      | .error e => .error e
      | .ok cs2 => .ok (cs ++ cs2)

/-!  The ten constraint families, in the order `add_all_constraints`
attaches them. -/

/-- The variable list built for one crew/slot inside
`_one_task_per_slot`: over the role set, keep roles whose key is in `x`. -/
def oneTaskVars (ctx : Ctx) (cid : String) (slot : Nat) : List VKey :=
  ((rolesList ctx.inp).filter (fun r => hasVar ctx (cid, slot, r))).map (fun r => (cid, slot, r))

/-- constraints.py `_one_task_per_slot`: for every crew and every slot of
the floor-rounded shift window, `sum(role_vars) == 1` whenever at least
one variable exists. -/
def oneTaskConstraints (ctx : Ctx) : List Constr :=
  (crewIds ctx.inp).flatMap (fun cid =>
    match crewById ctx.inp cid with
    | none => []
    | some c =>
      (List.range' (shiftStartSlotF ctx c) (shiftEndSlotF ctx c - shiftStartSlotF ctx c)).filterMap
        (fun slot =>
          let rv := oneTaskVars ctx cid slot
          if rv.isEmpty then none else some (.eqSum rv 1)))

/-- constraints.py `_store_hours`: nothing when the raw open/close keys
are absent; otherwise pin every existing variable of a non-outside-hours
role at shift slots before open or from close on. -/
def storeHoursConstraints (ctx : Ctx) : List Constr :=
  match ctx.inp.store.openMinutesFromMidnight, ctx.inp.store.closeMinutesFromMidnight with
  | some openMin, some closeMin =>
    let openSlot := openMin / ctx.slotMinutes
    let closeSlot := closeMin / ctx.slotMinutes
    (crewIds ctx.inp).flatMap (fun cid =>
      match crewById ctx.inp cid with
      | none => []
      | some c =>
        (List.range' (shiftStartSlotF ctx c) (shiftEndSlotF ctx c - shiftStartSlotF ctx c)).flatMap
          (fun slot =>
            if slot < openSlot ∨ closeSlot ≤ slot then
              (rolesList ctx.inp).filterMap (fun r =>
                if ¬ allowsOutsideHours ctx.inp r ∧ hasVar ctx (cid, slot, r) then
                  some (.pinZero (cid, slot, r))
                else none)
            else []))
  | _, _ => []

/-- The crew variables summed by `_enforce_hourly_role` for one slot. -/
def hourlyRoleVars (ctx : Ctx) (slot : Nat) (role : String) : List VKey :=
  ((crewIds ctx.inp).filter (fun cid => hasVar ctx (cid, slot, role))).map
    (fun cid => (cid, slot, role))

/-- The body of `_enforce_hourly_role`'s loop for one slot: error when
no crew variable exists, else `sum == required`. -/
def enforceHourlySlot (ctx : Ctx) (role : String) (required : Nat) (slot : Nat) :
    Except PyError (List Constr) :=
  let rv := hourlyRoleVars ctx slot role
  if rv.isEmpty then
    .error (.valueError ("Hour slot " ++ toString (slot / ctx.slotsPerHour) ++ " role " ++ role ++
      " requires " ++ toString required ++ " crew but no crew can be assigned."))
  else
    .ok [.eqSum rv (required : Int)]

/-- constraints.py `_enforce_hourly_role`: per slot of the hour, error as
soon as no crew variable exists, else `sum == required`. -/
def enforceHourlyRole (ctx : Ctx) (hourSlotsL : List Nat) (role : String) (required : Nat) :
    Except PyError (List Constr) :=
  collectE (enforceHourlySlot ctx role required) hourSlotsL

/-- The (role, required) pairs one hourly requirement enforces, in the
order `_hourly_staffing_requirements` tests them (only counts > 0). -/
def reqRoleDemands (req : HourlyReq) : List (String × Nat) :=
  (if req.requiredRegister > 0 then [("REGISTER", req.requiredRegister)] else []) ++
  (if req.requiredProduct > 0 then [("PRODUCT", req.requiredProduct)] else []) ++
  (if req.requiredParkingHelm > 0 then [("PARKING_HELM", req.requiredParkingHelm)] else [])

/-- constraints.py `_hourly_staffing_requirements`. -/
def hourlyConstraints (ctx : Ctx) : Except PyError (List Constr) :=
  collectE (fun req =>
    collectE (fun p => enforceHourlyRole ctx (hourSlots ctx req.hour) p.1 p.2)
      (reqRoleDemands req))
    ctx.inp.hourlyRequirements

/-- constraints.py `_parking_first_hour`: pin every existing parking-role
variable in the first `slots_per_hour` slots of each crew's shift. -/
def parkingFirstHourConstraints (ctx : Ctx) : List Constr :=
  (crewIds ctx.inp).flatMap (fun cid =>
    match crewById ctx.inp cid with
    | none => []
    | some c =>
      let sF := shiftStartSlotF ctx c
      (List.range' sF (min (sF + ctx.slotsPerHour) (shiftEndSlotF ctx c) - sF)).flatMap
        (fun slot =>
          (parkingRolesList ctx.inp).filterMap (fun r =>
            if hasVar ctx (cid, slot, r) then some (.pinZero (cid, slot, r)) else none)))

/-- constraints.py `_crew_role_requirements`. -/
def crewReqConstraints (ctx : Ctx) : Except PyError (List Constr) :=
  collectE (fun req =>
    let requiredSlots := req.requiredHours * (60 / ctx.slotMinutes)
    let roleSlots := ((List.range ctx.numSlots).filter
        (fun s => hasVar ctx (req.crewId, s, req.role))).map (fun s => (req.crewId, s, req.role))
    if requiredSlots > 0 ∧ roleSlots.isEmpty then
      .error (.valueError ("Crew " ++ req.crewId ++ " requiredHours " ++
        toString req.requiredHours ++ " on role " ++ req.role ++ " but has no available slots."))
    else if requiredSlots > 0 then
      .ok [.eqSum roleSlots (requiredSlots : Int)]
    else
      .ok []) ctx.inp.crewRoleRequirements

/-- constraints.py `_coverage_windows` (note the equality is added even
when `requiredPerHour` is 0). -/
def coverageConstraints (ctx : Ctx) : Except PyError (List Constr) :=
  collectE (fun w =>
    collectE (fun hour =>
      collectE (fun slot =>
        let cov := ((crewIds ctx.inp).filter (fun cid => hasVar ctx (cid, slot, w.role))).map
          (fun cid => (cid, slot, w.role))
        if w.requiredPerHour > 0 ∧ cov.isEmpty then
          .error (.valueError ("Coverage window for " ++ w.role ++ " hour " ++ toString hour ++
            " slot " ++ toString slot ++ " requires " ++ toString w.requiredPerHour ++
            " crew but no crew can be assigned."))
        else
          .ok [.eqSum cov (w.requiredPerHour : Int)]) (hourSlots ctx hour))
      (List.range' w.startHour (w.endHour - w.startHour)))
    ctx.inp.coverageWindows

/-- constraints.py `_minutes_to_slots` (legacy minutes → slots with a
small epsilon, on floats; embedded over `ℚ`). -/
def minutesToSlotsLegacy (minutes : Option ℚ) (ctx : Ctx) (isCeil : Bool) : Option Int :=
  match minutes with
  | none => none
  | some mq =>
    let slots : ℚ := mq / (ctx.slotMinutes : ℚ)
    if isCeil then some (ratCeil (slots - 1 / 1000000000))
    else some (ratFloor (slots + 1 / 1000000000))

/-- constraints.py `_max_defined_slot_requirement` for the two values it
is called with. -/
def maxDefined (a b : Option Int) : Option Int :=
  match a, b with
  | none, none => none
  | some x, none => some x
  | none, some y => some y
  | some x, some y => some (max x y)

/-- constraints.py `_min_defined_slot_requirement` for the two values it
is called with. -/
def minDefined (a b : Option Int) : Option Int :=
  match a, b with
  | none, none => none
  | some x, none => some x
  | none, some y => some y
  | some x, some y => some (min x y)

/-- constraints.py `_role_min_max` restricted to one crew and one role
(the body of the inner loop). -/
def roleMinMaxForCrew (ctx : Ctx) (role : String) (roleMinSlots roleMaxSlots : Option Int)
    (cid : String) : List Constr :=
  match crewById ctx.inp cid with
  | none => []
  | some c =>
    let roleVars := ((List.range ctx.numSlots).filter
        (fun s => hasVar ctx (cid, s, role))).map (fun s => (cid, s, role))
    if roleVars.isEmpty then []
    else
      let totalRoleSlots : Int := roleVars.length
      let crewMinSlots : Option Int :=
        if role == "REGISTER" then
          match c.minRegisterHours with
          | some mh => if 0 < mh then some (ratCeil (mh * (60 / ctx.slotMinutes : ℚ) - 1 / 1000000000)) else none
          | none => none
        else none
      let crewMaxSlots : Option Int :=
        if role == "REGISTER" then
          match c.maxRegisterHours with
          | some mh => if 0 ≤ mh then some (ratFloor (mh * (60 / ctx.slotMinutes : ℚ) + 1 / 1000000000)) else none
          | none => none
        else none
      let effMin := maxDefined crewMinSlots roleMinSlots
      let effMax := minDefined crewMaxSlots roleMaxSlots
      (match effMin with
       | some v => [Constr.geSum roleVars (min v totalRoleSlots)]
       | none => []) ++
      (match effMax with
       | some v => [Constr.leSum roleVars (min v totalRoleSlots)]
       | none => [])

/-- constraints.py `_role_min_max`: break roles are skipped; min/max come
from role metadata slots with a legacy minutes fallback; REGISTER crew
overrides are combined in; bounds are capped at the number of variables. -/
def roleMinMaxConstraints (ctx : Ctx) : List Constr :=
  (rolesList ctx.inp).flatMap (fun role =>
    if isBreakRoleB ctx.inp role then []
    else
      let meta := roleMetaFor ctx.inp role
      let roleMinSlots0 := (meta.bind (fun mt => mt.minSlots))
      let roleMaxSlots0 := (meta.bind (fun mt => mt.maxSlots))
      let roleMinSlots := match roleMinSlots0 with
        | some v => some v
        | none => minutesToSlotsLegacy (meta.bind (fun mt => mt.minMinutesPerCrew)) ctx true
      let roleMaxSlots := match roleMaxSlots0 with
        | some v => some v
        | none => minutesToSlotsLegacy (meta.bind (fun mt => mt.maxMinutesPerCrew)) ctx false
      if roleMinSlots.isNone ∧ roleMaxSlots.isNone ∧ role ≠ "REGISTER" then []
      else (crewIds ctx.inp).flatMap (roleMinMaxForCrew ctx role roleMinSlots roleMaxSlots))

/-- core.py `_store_break_policy` + `_min_shift_slots_for_break`. -/
def minShiftSlotsForBreak (ctx : Ctx) : Nat :=
  max 1 (ceilDiv (ctx.inp.store.minShiftMinutesForBreak.getD 360) ctx.slotMinutes)

/-- core.py `_break_window_for_shift`: offsets from the shift start in
slots, the latest slot clamped by shift end − 1, and the pair forced
non-decreasing. -/
def breakWindowForShift (ctx : Ctx) (shiftStartSlot shiftEndSlot : Nat) : Nat × Nat :=
  let startOffsetSlots := (ctx.inp.store.breakWindowStartOffsetMinutes.getD 180) / ctx.slotMinutes
  let endOffsetSlots := max startOffsetSlots
    ((ctx.inp.store.breakWindowEndOffsetMinutes.getD 270) / ctx.slotMinutes)
  let earliest := shiftStartSlot + startOffsetSlots
  let latest := min (shiftStartSlot + endOffsetSlots) (shiftEndSlot - 1)
  (earliest, max earliest latest)

/-- The existing break variables of one crew inside an inclusive slot
window. -/
def windowBreakVars (ctx : Ctx) (cid : String) (breakRole : String) (earliest latest : Nat) :
    List VKey :=
  ((List.range' earliest (latest + 1 - earliest)).filter
    (fun slot => hasVar ctx (cid, slot, breakRole))).map (fun slot => (cid, slot, breakRole))

/-- The pin-to-zero constraints for one crew's break role over the whole
floor-rounded shift window. -/
def breakPinAll (ctx : Ctx) (cid : String) (breakRole : String) (c : Crew) : List Constr :=
  (List.range' (shiftStartSlotF ctx c) (shiftEndSlotF ctx c - shiftStartSlotF ctx c)).filterMap
    (fun slot =>
      if hasVar ctx (cid, slot, breakRole) then some (.pinZero (cid, slot, breakRole)) else none)

/-- The pin-to-zero constraints `_meal_breaks` adds outside the break
window, over the floor-rounded shift window. -/
def breakPinOutside (ctx : Ctx) (cid breakRole : String) (c : Crew) (earliest latest : Nat) :
    List Constr :=
  (List.range' (shiftStartSlotF ctx c) (shiftEndSlotF ctx c - shiftStartSlotF ctx c)).filterMap
    (fun slot =>
      if (slot < earliest ∨ latest < slot) ∧ hasVar ctx (cid, slot, breakRole) then
        some (.pinZero (cid, slot, breakRole))
      else none)

/-- constraints.py `_meal_breaks`, body for one crew id. -/
def mealForCrew (ctx : Ctx) (breakRole : String) (cid : String) : Except PyError (List Constr) :=
  match crewById ctx.inp cid with
  | none => .ok []
  | some c =>
    let sF := shiftStartSlotF ctx c
    let eF := shiftEndSlotF ctx c
    if (c.canBreak.getD true) = false then .ok (breakPinAll ctx cid breakRole c)
    else if eF - sF < minShiftSlotsForBreak ctx then .ok (breakPinAll ctx cid breakRole c)
    else
      let w := breakWindowForShift ctx sF eF
      let earliest := w.1
      let latest := if eF ≤ w.2 then eF - 1 else w.2
      if latest < earliest then
        .error (.valueError ("Crew " ++ cid ++
          " shift requires a meal break, but store break window leaves no valid slots."))
      else
        let bv := windowBreakVars ctx cid breakRole earliest latest
        if bv.isEmpty then
          .error (.valueError ("Crew " ++ cid ++ " shift requires a meal break, but no " ++
            breakRole ++ " assignment is possible in slots " ++ toString earliest ++ "-" ++
            toString latest ++ "."))
        else
          .ok ([Constr.eqSum bv 1] ++ breakPinOutside ctx cid breakRole c earliest latest)

/-- The declared break roles restricted to the active role set, as
`_meal_breaks` computes them. -/
def activeBreakRoles (inp : Input) : List String :=
  (breakRolesList inp).filter (fun r => decide (r ∈ rolesList inp))

/-- constraints.py `_meal_breaks`. -/
def mealConstraints (ctx : Ctx) : Except PyError (List Constr) :=
  match activeBreakRoles ctx.inp with
  | [] => .ok []
  | breakRole :: _ => collectE (mealForCrew ctx breakRole) (crewIds ctx.inp)

/-- The variable keys of one block window of `_block_size_snap` (only the
ones that exist). -/
def blockVars (ctx : Ctx) (cid : String) (role : String) (slot blockSize : Nat) : List VKey :=
  ((List.range blockSize).filter (fun off => hasVar ctx (cid, slot + off, role))).map
    (fun off => (cid, slot + off, role))

/-- constraints.py `_block_size_snap`: for every role with block size
N > 1, walk each crew's floor-rounded shift in steps of N while a full
window fits, and chain `var == var_0` equalities when all N variables of
the window exist. -/
def blockSnapConstraints (ctx : Ctx) : List Constr :=
  (crewIds ctx.inp).flatMap (fun cid =>
    match crewById ctx.inp cid with
    | none => []
    | some c =>
      let sF := shiftStartSlotF ctx c
      let eF := shiftEndSlotF ctx c
      (rolesList ctx.inp).flatMap (fun role =>
        let blockSize := blockSizeOf ctx.inp role
        if blockSize ≤ 1 then []
        else
          (List.range ((eF - sF) / blockSize)).flatMap (fun j =>
            let slot := sF + j * blockSize
            let bv := blockVars ctx cid role slot blockSize
            if bv.length = blockSize then
              match bv with
              | [] => []
              | v0 :: rest => rest.map (fun v => .eqVar v v0)
            else [])))

/-- The ordered variable-slot list of one crew for one role inside
`_consecutive_slots`. -/
def consecRoleSlots (ctx : Ctx) (cid : String) (role : String) (c : Crew) : List Nat :=
  (List.range' (shiftStartSlotF ctx c) (shiftEndSlotF ctx c - shiftStartSlotF ctx c)).filter
    (fun slot => hasVar ctx (cid, slot, role))

/-- constraints.py `_consecutive_slots`: for every metadata role with
`slotsMustBeConsecutive`, and each crew, walk SUCCESSIVE entries of the
ordered variable-slot list and add `var_i + var_next <= 1` only when the
two slots are not adjacent. -/
def consecConstraints (ctx : Ctx) : List Constr :=
  ((metaRoles ctx.inp).filter
      (fun r => ((roleMetaFor ctx.inp r).bind (fun mt => mt.slotsMustBeConsecutive)).getD false)).flatMap
    (fun role =>
      if ¬ decide (role ∈ rolesList ctx.inp) then []
      else
        (crewIds ctx.inp).flatMap (fun cid =>
          match crewById ctx.inp cid with
          | none => []
          | some c =>
            let slots := consecRoleSlots ctx cid role c
            if slots.length ≤ 1 then []
            else
              (slots.zip slots.tail).filterMap (fun p =>
                if p.2 = p.1 + 1 then none
                else some (.addLeOne (cid, p.1, role) (cid, p.2, role)))))

/-- Modelled from the spec: C10 of the hard-constraint section says that
for ANY pair of entries of the ordered variable-slot list whose slot
difference is not 1, the constraint `var_i + var_j ≤ 1` is added; this
differs from `consecConstraints`, which only inspects successive
entries.  Used to compare the two behaviours. -/
def specConsecutivePairConstraints (ctx : Ctx) : List Constr :=
  ((metaRoles ctx.inp).filter
      (fun r => ((roleMetaFor ctx.inp r).bind (fun mt => mt.slotsMustBeConsecutive)).getD false)).flatMap
    (fun role =>
      if ¬ decide (role ∈ rolesList ctx.inp) then []
      else
        (crewIds ctx.inp).flatMap (fun cid =>
          match crewById ctx.inp cid with
          | none => []
          | some c =>
            let slots := consecRoleSlots ctx cid role c
            slots.flatMap (fun a =>
              (slots.filter (fun b => a < b)).filterMap (fun b =>
                if b = a + 1 then none
                else some (.addLeOne (cid, a, role) (cid, b, role))))))

/-- constraints.py `add_all_constraints`: the ten families in call
order; an exception from a fallible family aborts the whole attachment. -/
def addAllConstraints (ctx : Ctx) : Except PyError (List Constr) :=
  match hourlyConstraints ctx with
  | .error e => .error e
  | .ok c3 =>
    match crewReqConstraints ctx with
    | .error e => .error e
    | .ok c5 =>
      match coverageConstraints ctx with
      | .error e => .error e
      | .ok c6 =>
        match mealConstraints ctx with
        | .error e => .error e
        | .ok c8 =>
          .ok (oneTaskConstraints ctx ++ storeHoursConstraints ctx ++ c3 ++
            parkingFirstHourConstraints ctx ++ c5 ++ c6 ++ roleMinMaxConstraints ctx ++
            c8 ++ blockSnapConstraints ctx ++ consecConstraints ctx)

/-- A candidate schedule given as the list of decision variables set to
1; its assignment function. -/
def solAssign (sol : List VKey) : VKey → Bool := fun k => sol.contains k

/-- Full feasibility of a candidate schedule for an input: the model
builds without an exception, every set variable exists (a missing
variable acts as a pin of 0), and every attached constraint holds. -/
def feasibleB (inp : Input) (sol : List VKey) : Bool :=
  match mkCtx inp with
  | .error _ => false
  | .ok ctx =>
    match addAllConstraints ctx with
    | .error _ => false
    | .ok cs => sol.all (fun k => hasVar ctx k) && satAll (solAssign sol) cs

/-!  objective.py -/

/-- objective.py `_combine_weights`.  Mirrors the Python body: the
`base_weight or 0` line is the identity on a numeric value; the
`adaptive_boost or 1.0` line replaces a zero (or missing) boost by 1;
an absent crew weight uses the default multiplier; a non-positive crew
weight returns 0 immediately; a non-positive base with an explicit crew
weight drops the base factor. -/
def combineWeights (baseWeight : ℚ) (crewWeight : Option ℚ) (adaptiveBoost : ℚ)
    (defaultMultiplier : ℚ) : ℚ :=
  let base := baseWeight
  let adaptive : ℚ := if adaptiveBoost = 0 then 1 else adaptiveBoost
  match crewWeight with
  | some w =>
    if w ≤ 0 then 0
    else if base ≤ 0 then w * adaptive
    else base * w * adaptive
  | none =>
    if base ≤ 0 then 0
    else base * defaultMultiplier * adaptive

/-!  diagnostics.py -/

/-- diagnostics.py: crew availability for a slot and role (the number of
crew ids whose variable exists). -/
def availCount (ctx : Ctx) (slot : Nat) (role : String) : Nat :=
  (crewIds ctx.inp).countP (fun cid => hasVar ctx (cid, slot, role))

/-- diagnostics.py generic fallback message. -/
def genericInfeasibleMsg : String :=
  "Model is infeasible but specific violations could not be determined"

/-- diagnostics.py `_append_if_insufficient`: nothing when the hour has
no slots; otherwise one message when the minimum availability over the
hour's slots is below the requirement. -/
def appendIfInsufficient (ctx : Ctx) (hour : Nat) (hourSlotsL : List Nat) (role : String)
    (required : Nat) : List String :=
  if hourSlotsL.isEmpty then []
  else
    match (hourSlotsL.map (fun slot => availCount ctx slot role)).min? with
    | none => []
    | some available =>
      if available < required then
        ["Hour " ++ toString hour ++ ": Need " ++ toString required ++ " " ++ role ++
          " crew but only " ++ toString available ++ " available in at least one store slot."]
      else []

/-- diagnostics.py check 1: hourly staffing availability. -/
def check1Violations (ctx : Ctx) : List String :=
  ctx.inp.hourlyRequirements.flatMap (fun req =>
    (reqRoleDemands req).flatMap (fun p =>
      appendIfInsufficient ctx req.hour (hourSlots ctx req.hour) p.1 p.2))

/-- diagnostics.py check 2, body for one per-crew role requirement. -/
def check2ForReq (ctx : Ctx) (req : CrewRoleReq) : List String :=
  let requiredSlots := req.requiredHours * (60 / ctx.slotMinutes)
  let availableSlots := (List.range ctx.numSlots).countP
    (fun s => hasVar ctx (req.crewId, s, req.role))
  if availableSlots < requiredSlots then
    ["Crew " ++ req.crewId ++ ": Need " ++ toString req.requiredHours ++ " hours (" ++
      toString requiredSlots ++ " slots) on " ++ req.role ++ " but only " ++
      toString availableSlots ++ " slots available in shift."]
  else []

/-- diagnostics.py check 2: per-crew role-hour availability. -/
def check2Violations (ctx : Ctx) : List String :=
  ctx.inp.crewRoleRequirements.flatMap (check2ForReq ctx)

/-- diagnostics.py check 3, body for one covered slot of one window. -/
def check3ForSlot (ctx : Ctx) (w : CoverageWindow) (hour slot : Nat) : List String :=
  let availableCrew := (crewIds ctx.inp).countP (fun cid => hasVar ctx (cid, slot, w.role))
  if availableCrew < w.requiredPerHour then
    [w.role ++ " coverage window: Hour " ++ toString hour ++ " (slot " ++ toString slot ++
      ") needs " ++ toString w.requiredPerHour ++ " crew but only " ++
      toString availableCrew ++ " available."]
  else []

/-- diagnostics.py check 3: coverage-window availability. -/
def check3Violations (ctx : Ctx) : List String :=
  ctx.inp.coverageWindows.flatMap (fun w =>
    (List.range' w.startHour (w.endHour - w.startHour)).flatMap (fun hour =>
      (hourSlots ctx hour).flatMap (check3ForSlot ctx w hour)))

/-- diagnostics.py check 4, body for one crew id. -/
def check4ForCrew (ctx : Ctx) (breakRole : String) (cid : String) : List String :=
  match crewById ctx.inp cid with
  | none => []
  | some c =>
    if (c.canBreak.getD true) = false then []
    else
      let sF := shiftStartSlotF ctx c
      let eF := shiftEndSlotF ctx c
      if eF - sF < minShiftSlotsForBreak ctx then []
      else
        let w := breakWindowForShift ctx sF eF
        let latest := min w.2 (eF - 1)
        if (List.range' w.1 (latest + 1 - w.1)).any
            (fun s => hasVar ctx (cid, s, breakRole)) then []
        else
          ["Crew " ++ cid ++ ": Cannot schedule required meal break in valid slots " ++
            toString w.1 ++ "-" ++ toString latest ++ "."]

/-- diagnostics.py check 4: break-window availability for crew that must
break. -/
def check4Violations (ctx : Ctx) : List String :=
  match activeBreakRoles ctx.inp with
  | [] => []
  | breakRole :: _ => (crewIds ctx.inp).flatMap (check4ForCrew ctx breakRole)

/-- diagnostics.py `detect_violations`: the four checks in order, with
the generic fallback when every check passes. -/
def detectViolations (ctx : Ctx) : List String :=
  let violations := check1Violations ctx ++ check2Violations ctx ++ check3Violations ctx ++
    check4Violations ctx
  if violations.isEmpty then [genericInfeasibleMsg] else violations

/-!  core.py `__init__` tail and main.py -/

/-- The attribute names assigned on `self` during
`LogbookSolver.__init__` (core.py lines 16-66, including the helpers
`_index_crew` and `_index_roles` it calls).  The class body defines only
methods besides these. -/
def initAttrNames : List String :=
  ["model", "date", "store", "crew", "hourly_requirements", "crew_role_requirements",
   "coverage_windows", "role_metadata", "time_limit", "slot_minutes", "num_slots",
   "slots_per_hour", "slots", "hours", "open_minutes", "close_minutes", "register_window",
   "_default_universal_roles", "role_meta_map", "crew_ids", "crew_by_id", "roles",
   "half_hour_roles", "x"]

/-- objective.py `add_objective` begins with `for pref in
solver.preferences` (line 17).  Python attribute lookup on a name that
was never assigned (and is not a method) raises `AttributeError`, so the
step succeeds only if `preferences` is among the assigned attributes. -/
def addObjectiveStep : Except PyError Unit :=
  if decide ("preferences" ∈ initAttrNames) then .ok ()
  else .error (.attributeError "preferences")

/-- `LogbookSolver.__init__`: derive the context, attach all hard
constraints, then attach the objective; the first exception propagates. -/
def logbookSolverInit (inp : Input) : Except PyError (Ctx × List Constr) :=
  match mkCtx inp with
  | .error e => .error e
  | .ok ctx =>
    match addAllConstraints ctx with
    | .error e => .error e
    | .ok cs =>
      match addObjectiveStep with
      | .error e => .error e
      | .ok _ => .ok (ctx, cs)

/-- The error document `main` (main.py) prints before exiting with code
1 when any exception escapes construction or solving. -/
structure CliError where
  exitCode : Nat
  success : Bool
  status : String
  violations : List String
  errorMsg : String
deriving DecidableEq

/-- The message `str(exc)` carries for each embedded exception. -/
def pyErrorMessage : PyError → String
  | .valueError msg => msg
  | .attributeError attrName => "LogbookSolver object has no attribute " ++ attrName

/-- main.py `main` on a parsed input document, up to the external
solver boundary: `some` with the error document and exit code 1 when
construction raises; `none` when construction succeeds and control
would pass to `solve()` (the external CP-SAT engine). -/
def mainOutcome (inp : Input) : Option CliError :=
  match logbookSolverInit inp with
  | .error e =>
    some { exitCode := 1, success := false, status := "ERROR",
           violations := [pyErrorMessage e], errorMsg := pyErrorMessage e }
  | .ok _ => none

/-!  Concrete inputs used by counterexamples and witnesses.  All use a
60-minute base slot, so a day has 24 slots and each hour is one slot. -/

/-- Store with a 60-minute base slot and every other key absent. -/
def store60 : Store := { baseSlotMinutes := some 60 }

/-- Crew for the C2 counterexample: shift 8:00-10:30, so the ceiling
end slot (11) exceeds the floor end slot (10). -/
def crewC2 : Crew := { id := "A", shiftStartMin := 480, shiftEndMin := 630 }

/-- Input for the C2 counterexample. -/
def inpC2 : Input := { store := store60, crew := [crewC2] }

/-- Candidate schedule for the C2 counterexample: PRODUCT in slots 8 and
9, nothing anywhere else — in particular nothing in slot 10, the final
(partial) slot of the shift. -/
def solC2 : List VKey := [("A", 8, "PRODUCT"), ("A", 9, "PRODUCT")]

/-- Crew for the C3 counterexample: shift 8:00-12:00 (slots 8-11),
eligible for ORDER_WRITER. -/
def crewC3 : Crew := { id := "A", shiftStartMin := 480, shiftEndMin := 720,
                       eligibleRoles := ["ORDER_WRITER"] }

/-- Input for the C3 counterexample: ORDER_WRITER must be consecutive. -/
def inpC3 : Input := { store := store60, crew := [crewC3],
                       roleMetadata := [{ role := "ORDER_WRITER", slotsMustBeConsecutive := some true }] }

/-- Candidate schedule for the C3 counterexample: ORDER_WRITER in slots
8 and 10 with PRODUCT in between — a gap in a must-be-consecutive role. -/
def solC3 : List VKey :=
  [("A", 8, "ORDER_WRITER"), ("A", 9, "PRODUCT"), ("A", 10, "ORDER_WRITER"), ("A", 11, "PRODUCT")]

/-- Crew for the C4 counterexample: shift 8:00-11:00 (slots 8-10, three
slots), eligible for STOCK. -/
def crewC4 : Crew := { id := "A", shiftStartMin := 480, shiftEndMin := 660,
                       eligibleRoles := ["STOCK"] }

/-- Input for the C4 counterexample: STOCK has block size 2, but the
shift is 3 slots long, so the last slot is beyond the only full window. -/
def inpC4 : Input := { store := store60, crew := [crewC4],
                       roleMetadata := [{ role := "STOCK", blockSize := some 2 }] }

/-- Candidate schedule for the C4 counterexample: STOCK in all three
shift slots — a run of odd length for a block-size-2 role. -/
def solC4 : List VKey := [("A", 8, "STOCK"), ("A", 9, "STOCK"), ("A", 10, "STOCK")]

/-- Crew for the C6 counterexample: shift 8:00-10:30 and cannot break. -/
def crewC6 : Crew := { id := "A", shiftStartMin := 480, shiftEndMin := 630,
                       canBreak := some false }

/-- Input for the C6 counterexample. -/
def inpC6 : Input := { store := store60, crew := [crewC6] }

/-- Candidate schedule for the C6 counterexample: the no-break crew takes
MEAL_BREAK in slot 10, the final (partial) slot of the shift, which the
builder never pins. -/
def solC6 : List VKey := [("A", 8, "PRODUCT"), ("A", 9, "PRODUCT"), ("A", 10, "MEAL_BREAK")]

/-- Input for the C7 counterexample: an explicit `baseSlotMinutes` of 0. -/
def inpC7 : Input := { store := { baseSlotMinutes := some 0 } }

/-- Crew for the C8 counterexample: shift 8:00-9:00, no eligible roles. -/
def crewC8 : Crew := { id := "A", shiftStartMin := 480, shiftEndMin := 540 }

/-- Input for the C8 counterexample: the role GHOST is declared universal
in the metadata but belongs to no crew member's role list, so it never
enters the active role set and gets no variables. -/
def inpC8 : Input := { store := store60, crew := [crewC8],
                       roleMetadata := [{ role := "GHOST", isUniversal := some true }] }

/-- The empty input document (no crew, no requirements): every
constraint family succeeds trivially, so construction reaches the
objective step. -/
def inpEmpty : Input := {}

/-- Input for the C5 witness: one crew on shift 8:00-9:00 and an hourly
requirement of one REGISTER in hour 8. -/
def inpC5W : Input := { store := store60,
                        crew := [{ id := "A", shiftStartMin := 480, shiftEndMin := 540 }],
                        hourlyRequirements := [{ hour := 8, requiredRegister := 1 }] }

/-- Crew for the C6 witness: shift 8:00-20:00 (12 slots), long enough to
mandate a break. -/
def crewC6W : Crew := { id := "A", shiftStartMin := 480, shiftEndMin := 1200 }

/-- Input for the C6 witness. -/
def inpC6W : Input := { store := store60, crew := [crewC6W] }

/-- Candidate schedule for the C6 witness: MEAL_BREAK exactly in slot
11 (the earliest slot of the break window), PRODUCT elsewhere. -/
def solC6W : List VKey :=
  [("A", 8, "PRODUCT"), ("A", 9, "PRODUCT"), ("A", 10, "PRODUCT"), ("A", 11, "MEAL_BREAK"),
   ("A", 12, "PRODUCT"), ("A", 13, "PRODUCT"), ("A", 14, "PRODUCT"), ("A", 15, "PRODUCT"),
   ("A", 16, "PRODUCT"), ("A", 17, "PRODUCT"), ("A", 18, "PRODUCT"), ("A", 19, "PRODUCT")]

/-- Crew for the C2 witness: shift 8:00-10:00 (shift end on the slot
grid). -/
def crewC2W : Crew := { id := "A", shiftStartMin := 480, shiftEndMin := 600 }

/-- Input for the C2 witness. -/
def inpC2W : Input := { store := store60, crew := [crewC2W] }

/-- Candidate schedule for the C2 witness: PRODUCT in both shift slots. -/
def solC2W : List VKey := [("A", 8, "PRODUCT"), ("A", 9, "PRODUCT")]

/-- Crew for the C8 witness: shift 8:00-9:00. -/
def crewC8W : Crew := { id := "A", shiftStartMin := 480, shiftEndMin := 540 }

/-- Input for the C8 witness: one crew on shift 8:00-9:00. -/
def inpC8W : Input := { store := store60, crew := [crewC8W] }

/-- Input for the C10 witness: the hourly demand of hour 8 needs two
REGISTER crew but only one crew member exists. -/
def inpC10W : Input := { store := store60,
                         crew := [{ id := "A", shiftStartMin := 480, shiftEndMin := 540 }],
                         hourlyRequirements := [{ hour := 8, requiredRegister := 2 }] }

/-- The constraint list of a context whose attachment succeeds (used to
state closed witness facts about concrete inputs). -/
def okConstraintsOf (ctx : Ctx) : List Constr := (addAllConstraints ctx).toOption.getD []

/-- The ERROR document `main` prints when the AttributeError for
`preferences` escapes construction. -/
def attrErrorCli : CliError :=
  { exitCode := 1, success := false, status := "ERROR",
    violations := [pyErrorMessage (.attributeError "preferences")],
    errorMsg := pyErrorMessage (.attributeError "preferences") }

/-- Fold step collecting maximal runs of consecutive naturals: extends
the current run or opens a new one (input visited in ascending order). -/
def extendRuns (runs : List (Nat × Nat)) (s : Nat) : List (Nat × Nat) :=
  match runs with
  | [] => [(s, 1)]
  | (st, len) :: rest => if st + len = s then (st, len + 1) :: rest else (s, 1) :: (st, len) :: rest

/-- The maximal runs (start, length) of an ascending list of slots. -/
def runsOf (l : List Nat) : List (Nat × Nat) := l.foldl extendRuns []

/-- Modelled from the spec: the block invariant of §8 — the assigned
slots split into contiguous runs whose lengths are multiples of N and
whose start positions are congruent to the shift-start slot modulo N. -/
def runsAlignedMultiples (l : List Nat) (n start0 : Nat) : Bool :=
  (runsOf l).all (fun r => (r.2 % n == 0) && (r.1 % n == start0 % n))

/-!  Shared lemmas about the embedding. -/

theorem mkCtx_inp {inp : Input} {ctx : Ctx} (h : mkCtx inp = .ok ctx) : ctx.inp = inp := by
  unfold mkCtx at h
  cases hs : sanitizeSlotMinutes (inp.store.baseSlotMinutes.getD 30) with
  | error e => rw [hs] at h; cases h
  | ok v => rw [hs] at h; cases h; rfl

theorem satAll_mem {σ : VKey → Bool} {cs : List Constr} {c : Constr}
    (h : satAll σ cs = true) (hc : c ∈ cs) : satC σ c = true :=
  List.all_eq_true.mp h c hc

theorem sumVal_map_countP {α : Type} (σ : VKey → Bool) (l : List α) (f : α → VKey) :
    sumVal σ (l.map f) = (l.countP (fun a => σ (f a)) : Int) := by
  induction l with
  | nil => rfl
  | cons x xs ih =>
    simp only [List.map_cons, sumVal, List.sum_cons, List.countP_cons] at *
    rw [ih]
    by_cases hb : σ (f x) = true
    · simp only [boolVal, hb, if_true]
      push_cast
      ring
    · simp only [Bool.not_eq_true] at hb
      simp [boolVal, hb]

theorem collectE_ok_sub {α : Type} (f : α → Except PyError (List Constr)) :
    ∀ (l : List α) (cs : List Constr), collectE f l = .ok cs →
      ∀ a ∈ l, ∃ cs', f a = .ok cs' ∧ ∀ c ∈ cs', c ∈ cs := by
  intro l
  induction l with
  | nil => intro cs _ a ha; cases ha
  | cons x xs ih =>
    intro cs h a ha
    unfold collectE at h
    cases hfx : f x with
    | error e => rw [hfx] at h; cases h
    | ok cs1 =>
      rw [hfx] at h
      cases hrest : collectE f xs with
      | error e => rw [hrest] at h; cases h
      | ok cs2 =>
        rw [hrest] at h
        injection h with h
        subst h
        rcases List.mem_cons.mp ha with rfl | ha
        · exact ⟨cs1, hfx, fun c hc => List.mem_append_left _ hc⟩
        · obtain ⟨cs', hfa, hsub⟩ := ih cs2 hrest a ha
          exact ⟨cs', hfa, fun c hc => List.mem_append_right _ (hsub c hc)⟩

theorem addAll_ok_parts {ctx : Ctx} {cs : List Constr} (h : addAllConstraints ctx = .ok cs) :
    ∃ c3 c5 c6 c8, hourlyConstraints ctx = .ok c3 ∧ crewReqConstraints ctx = .ok c5 ∧
      coverageConstraints ctx = .ok c6 ∧ mealConstraints ctx = .ok c8 ∧
      cs = oneTaskConstraints ctx ++ storeHoursConstraints ctx ++ c3 ++
        parkingFirstHourConstraints ctx ++ c5 ++ c6 ++ roleMinMaxConstraints ctx ++ c8 ++
        blockSnapConstraints ctx ++ consecConstraints ctx := by
  unfold addAllConstraints at h
  cases h3 : hourlyConstraints ctx with
  | error e => rw [h3] at h; cases h
  | ok c3 =>
    rw [h3] at h
    cases h5 : crewReqConstraints ctx with
    | error e => rw [h5] at h; cases h
    | ok c5 =>
      rw [h5] at h
      cases h6 : coverageConstraints ctx with
      | error e => rw [h6] at h; cases h
      | ok c6 =>
        rw [h6] at h
        cases h8 : mealConstraints ctx with
        | error e => rw [h8] at h; cases h
        | ok c8 =>
          rw [h8] at h
          injection h with h
          exact ⟨c3, c5, c6, c8, rfl, rfl, rfl, rfl, h.symm⟩

theorem crewById_mem {inp : Input} {cid : String} {c : Crew}
    (h : crewById inp cid = some c) : cid ∈ crewIds inp ∧ c ∈ inp.crew ∧ c.id = cid := by
  unfold crewById at h
  have h1 : c ∈ inp.crew := List.mem_reverse.mp (List.mem_of_find?_eq_some h)
  have h2 : c.id = cid := by
    have := List.find?_some h
    exact beq_iff_eq.mp this
  refine ⟨?_, h1, h2⟩
  rw [← h2]
  exact List.mem_map_of_mem (fun c => c.id) h1

theorem mem_xKeys_iff {ctx : Ctx} {cid : String} {k : Nat} {r : String} :
    (cid, k, r) ∈ xKeys ctx ↔
      ∃ c, crewById ctx.inp cid = some c ∧
        shiftStartSlotV ctx c ≤ k ∧ k < shiftEndSlotV ctx c ∧
        r ∈ rolesList ctx.inp ∧ varGuard ctx c k r = true := by
  unfold xKeys
  rw [List.mem_flatMap]
  constructor
  · rintro ⟨cid', hcid', hk⟩
    cases hc : crewById ctx.inp cid' with
    | none => rw [hc] at hk; cases hk
    | some c =>
      rw [hc] at hk
      rw [List.mem_flatMap] at hk
      obtain ⟨slot, hslot, hk⟩ := hk
      rw [List.mem_map] at hk
      obtain ⟨r', hr', heq⟩ := hk
      cases heq
      rw [List.mem_filter] at hr'
      have hrange := List.mem_range'_1.mp hslot
      exact ⟨c, hc, hrange.1, by omega, hr'.1, hr'.2⟩
  · rintro ⟨c, hc, h1, h2, h3, h4⟩
    refine ⟨cid, (crewById_mem hc).1, ?_⟩
    rw [hc, List.mem_flatMap]
    refine ⟨k, List.mem_range'_1.mpr ⟨h1, by omega⟩, ?_⟩
    rw [List.mem_map]
    exact ⟨r, List.mem_filter.mpr ⟨h3, h4⟩, rfl⟩

theorem varGuard_iff {ctx : Ctx} {c : Crew} {k : Nat} {r : String} :
    varGuard ctx c k r = true ↔
      (isUniversalRole ctx.inp r = true ∨ r ∈ crewRolesOf c) ∧
      (insideStoreHours ctx k = true ∨ allowsOutsideHours ctx.inp r = true) ∧
      (r = "REGISTER" → insideRegWindow ctx k = true) := by
  unfold varGuard
  by_cases hreg : r = "REGISTER"
  · subst hreg
    simp [Bool.and_eq_true, Bool.or_eq_true, decide_eq_true_eq]
    tauto
  · have : (r == "REGISTER") = false := beq_eq_false_iff_ne.mpr hreg
    simp [Bool.and_eq_true, Bool.or_eq_true, decide_eq_true_eq, this, hreg]

theorem sanitize_ok_facts {x w : Int} (h : sanitizeSlotMinutes x = .ok w) :
    0 < w ∧ (60 : Int) % w = 0 := by
  unfold sanitizeSlotMinutes at h
  by_cases h1 : (if x = 0 then (30 : Int) else x) ≤ 0
  · rw [if_pos h1] at h
    cases h
  · rw [if_neg h1] at h
    by_cases h2 : 60 % (if x = 0 then (30 : Int) else x) ≠ 0
    · rw [if_pos h2] at h
      cases h
    · rw [if_neg h2] at h
      push_neg at h2
      injection h with h
      subst h
      exact ⟨by omega, h2⟩

theorem oneTask_mem {ctx : Ctx} {cid : String} {c : Crew} {slot : Nat}
    (hc : crewById ctx.inp cid = some c)
    (h1 : shiftStartSlotF ctx c ≤ slot) (h2 : slot < shiftEndSlotF ctx c)
    (h3 : oneTaskVars ctx cid slot ≠ []) :
    Constr.eqSum (oneTaskVars ctx cid slot) 1 ∈ oneTaskConstraints ctx := by
  unfold oneTaskConstraints
  rw [List.mem_flatMap]
  refine ⟨cid, (crewById_mem hc).1, ?_⟩
  rw [hc, List.mem_filterMap]
  refine ⟨slot, List.mem_range'_1.mpr ⟨h1, by omega⟩, ?_⟩
  have hne : ¬ ((oneTaskVars ctx cid slot).isEmpty = true) := by
    rw [List.isEmpty_iff]
    exact h3
  simp only [if_neg hne]

theorem hourly_ok_slot {ctx : Ctx} {c3 : List Constr} (h : hourlyConstraints ctx = .ok c3) :
    ∀ req ∈ ctx.inp.hourlyRequirements, ∀ p ∈ reqRoleDemands req,
      ∀ slot ∈ hourSlots ctx req.hour,
        hourlyRoleVars ctx slot p.1 ≠ [] ∧
        Constr.eqSum (hourlyRoleVars ctx slot p.1) (p.2 : Int) ∈ c3 := by
  intro req hreq p hp slot hslot
  obtain ⟨csr, hr, hsubr⟩ := collectE_ok_sub _ _ _ h req hreq
  obtain ⟨csp, hpok, hsubp⟩ := collectE_ok_sub _ _ _ hr p hp
  unfold enforceHourlyRole at hpok
  obtain ⟨css, hsok, hsubs⟩ := collectE_ok_sub _ _ _ hpok slot hslot
  unfold enforceHourlySlot at hsok
  by_cases he : (hourlyRoleVars ctx slot p.1).isEmpty = true
  · rw [if_pos he] at hsok
    cases hsok
  · rw [if_neg he] at hsok
    injection hsok with hsok
    subst hsok
    refine ⟨fun hnil => he (by rw [hnil]; rfl), ?_⟩
    exact hsubr _ (hsubp _ (hsubs _ (List.mem_singleton_self _)))

theorem addAll_meal_sub {ctx : Ctx} {cs : List Constr} (h : addAllConstraints ctx = .ok cs) :
    ∃ c8, mealConstraints ctx = .ok c8 ∧ ∀ x ∈ c8, x ∈ cs := by
  obtain ⟨c3, c5, c6, c8, _, _, _, h8, hcseq⟩ := addAll_ok_parts h
  refine ⟨c8, h8, ?_⟩
  intro x hx
  subst hcseq
  simp only [List.mem_append]
  exact Or.inl (Or.inl (Or.inr hx))

theorem breakPinAll_mem {ctx : Ctx} {cid br : String} {c : Crew} {slot : Nat}
    (h1 : shiftStartSlotF ctx c ≤ slot) (h2 : slot < shiftEndSlotF ctx c)
    (hv : hasVar ctx (cid, slot, br) = true) :
    Constr.pinZero (cid, slot, br) ∈ breakPinAll ctx cid br c := by
  unfold breakPinAll
  rw [List.mem_filterMap]
  refine ⟨slot, List.mem_range'_1.mpr ⟨h1, by omega⟩, ?_⟩
  rw [if_pos hv]

theorem breakPinOutside_mem {ctx : Ctx} {cid br : String} {c : Crew} {earliest latest slot : Nat}
    (h1 : shiftStartSlotF ctx c ≤ slot) (h2 : slot < shiftEndSlotF ctx c)
    (hout : slot < earliest ∨ latest < slot)
    (hv : hasVar ctx (cid, slot, br) = true) :
    Constr.pinZero (cid, slot, br) ∈ breakPinOutside ctx cid br c earliest latest := by
  unfold breakPinOutside
  rw [List.mem_filterMap]
  refine ⟨slot, List.mem_range'_1.mpr ⟨h1, by omega⟩, ?_⟩
  rw [if_pos ⟨hout, hv⟩]

theorem sol_false_of_pin_sub {ctx : Ctx} {cs : List Constr} {sol : List VKey} {k : VKey}
    (hsol : ∀ k' ∈ sol, hasVar ctx k' = true)
    (hsat : satAll (solAssign sol) cs = true)
    (hpin : hasVar ctx k = true → Constr.pinZero k ∈ cs) : solAssign sol k = false := by
  by_cases hv : hasVar ctx k = true
  · have := satAll_mem hsat (hpin hv)
    simpa [satC] using this
  · cases hσ : solAssign sol k with
    | false => rfl
    | true => exact absurd (hsol k (List.elem_iff.mp hσ)) hv

theorem countP_assign_filter_hasVar {ctx : Ctx} {sol : List VKey}
    (hsol : ∀ k ∈ sol, hasVar ctx k = true) (cid br : String) (l : List Nat) :
    (l.filter (fun s => hasVar ctx (cid, s, br))).countP
        (fun s => solAssign sol (cid, s, br)) =
      l.countP (fun s => solAssign sol (cid, s, br)) := by
  rw [List.countP_filter]
  apply List.countP_congr
  intro s _
  by_cases hσ : solAssign sol (cid, s, br) = true
  · have hv := hsol _ (List.elem_iff.mp hσ)
    simp [hσ, hv]
  · rw [Bool.not_eq_true] at hσ
    simp [hσ]

/-!  Claim theorems. -/

/-- C7: the sanitizer rejects negative slot lengths and positive slot
lengths not dividing 60, accepts positive divisors of 60 unchanged, but
treats 0 as a missing value and silently replaces it by the default 30
(it is NOT rejected); every accepted context has a positive slot length
dividing 60, `numSlots = 1440 / m` and `slotsPerHour = 60 / m`. -/
theorem c7_sanitize_slot_minutes :
    ∀ v : Int,
      (v < 0 → sanitizeSlotMinutes v =
        .error (.valueError "Store baseSlotMinutes must be positive")) ∧
      (0 < v → ¬ v ∣ 60 → sanitizeSlotMinutes v =
        .error (.valueError "Store baseSlotMinutes must divide 60 for hourly requirements")) ∧
      (0 < v → v ∣ 60 → sanitizeSlotMinutes v = .ok v) ∧
      sanitizeSlotMinutes 0 = .ok 30 ∧
      (∀ inp ctx, mkCtx inp = .ok ctx →
        0 < ctx.slotMinutes ∧ ctx.slotMinutes ∣ 60 ∧
        ctx.numSlots = 1440 / ctx.slotMinutes ∧ ctx.slotsPerHour = 60 / ctx.slotMinutes) := by
  intro v
  refine ⟨?_, ?_, ?_, rfl, ?_⟩
  · intro hv
    have h0 : ¬ v = 0 := by omega
    have h1 : v ≤ 0 := by omega
    simp [sanitizeSlotMinutes, h0, h1]
  · intro hv hdvd
    have h0 : ¬ v = 0 := by omega
    have h1 : ¬ v ≤ 0 := by omega
    have h2 : 60 % v ≠ 0 := fun hc => hdvd (Int.dvd_of_emod_eq_zero hc)
    simp [sanitizeSlotMinutes, h0, h1, h2]
  · intro hv hdvd
    have h0 : ¬ v = 0 := by omega
    have h1 : ¬ v ≤ 0 := by omega
    have h2 : 60 % v = 0 := Int.emod_eq_zero_of_dvd hdvd
    simp [sanitizeSlotMinutes, h0, h1, h2]
  · intro inp ctx h
    unfold mkCtx at h
    cases hs : sanitizeSlotMinutes (inp.store.baseSlotMinutes.getD 30) with
    | error e => rw [hs] at h; cases h
    | ok w =>
      rw [hs] at h
      injection h with h
      subst h
      obtain ⟨hw, hmod⟩ := sanitize_ok_facts hs
      have hsm : (ctxOf inp w.toNat).slotMinutes = w.toNat := rfl
      have hwt : (w.toNat : Int) = w := Int.toNat_of_nonneg (by omega)
      refine ⟨by omega, ?_, ?_, rfl⟩
      · have hdvd : w ∣ 60 := Int.dvd_of_emod_eq_zero hmod
        rw [hsm]
        have : (w.toNat : Int) ∣ (60 : Int) := hwt ▸ hdvd
        exact_mod_cast this
      · rfl

/-- C7 counterexample: a `baseSlotMinutes` of 0 is not rejected; the
sanitizer returns the default 30 and solver construction proceeds with a
30-minute slot grid. -/
theorem c7_zero_not_rejected_counterexample :
    sanitizeSlotMinutes 0 = .ok 30 ∧ mkCtx inpC7 = .ok (ctxOf inpC7 30) ∧
      (ctxOf inpC7 30).slotMinutes = 30 :=
  ⟨rfl, rfl, rfl⟩

/-- C7 witness: the sanitizer at concrete inputs −5 (rejected), 7
(rejected, does not divide 60) and 15 (accepted). -/
theorem c7_sanitize_witness :
    sanitizeSlotMinutes (-5) = .error (.valueError "Store baseSlotMinutes must be positive") ∧
    sanitizeSlotMinutes 7 =
      .error (.valueError "Store baseSlotMinutes must divide 60 for hourly requirements") ∧
    sanitizeSlotMinutes 15 = .ok 15 :=
  ⟨(c7_sanitize_slot_minutes (-5)).1 (by omega),
   (c7_sanitize_slot_minutes 7).2.1 (by omega) (by decide),
   (c7_sanitize_slot_minutes 15).2.2.1 (by omega) (by decide)⟩

/-- C9 (amended): the effective weight of `_combine_weights` follows the
claimed rules except that a zero adaptive boost is first replaced by 1
(the Python `adaptive_boost or 1.0` normalisation): a non-positive crew
weight yields 0; an absent crew weight with non-positive base yields 0;
an absent crew weight with positive base yields base · default ·
adaptive; an explicit positive crew weight with non-positive base yields
crew · adaptive; otherwise the full product. -/
theorem c9_combine_weights :
    ∀ (b a d w : ℚ),
      (w ≤ 0 → combineWeights b (some w) a d = 0) ∧
      (b ≤ 0 → combineWeights b none a d = 0) ∧
      (0 < b → combineWeights b none a d = b * d * (if a = 0 then 1 else a)) ∧
      (0 < w → b ≤ 0 → combineWeights b (some w) a d = w * (if a = 0 then 1 else a)) ∧
      (0 < w → 0 < b → combineWeights b (some w) a d = b * w * (if a = 0 then 1 else a)) := by
  intro b a d w
  refine ⟨?_, ?_, ?_, ?_, ?_⟩
  · intro hw
    simp [combineWeights, hw]
  · intro hb
    simp [combineWeights, hb]
  · intro hb
    have : ¬ b ≤ 0 := by linarith
    simp [combineWeights, this]
  · intro hw hb
    have : ¬ w ≤ 0 := by linarith
    simp [combineWeights, this, hb]
  · intro hw hb
    have h1 : ¬ w ≤ 0 := by linarith
    have h2 : ¬ b ≤ 0 := by linarith
    simp [combineWeights, h1, h2]

/-- C9 counterexample: with base 2, crew weight 2 and adaptive boost 0
the code returns 4 — the zero boost is coerced to 1 — whereas the
claimed full product base · crew · adaptive would be 0. -/
theorem c9_zero_boost_counterexample :
    combineWeights 2 (some 2) 0 1 = 4 ∧ (2 : ℚ) * 2 * 0 = 0 ∧ (4 : ℚ) ≠ 0 := by
  refine ⟨?_, by norm_num, by norm_num⟩
  norm_num [combineWeights]

/-- C9 witness: the amended rules evaluated at concrete weights. -/
theorem c9_combine_witness :
    combineWeights 3 (some 2) 5 1 = 30 ∧ combineWeights 3 (some (-1)) 5 1 = 0 ∧
      combineWeights (-2) (some 2) 5 1 = 10 ∧ combineWeights (-2) none 5 1 = 0 := by
  have h1 := (c9_combine_weights 3 5 1 2).2.2.2.2 (by norm_num) (by norm_num)
  have h2 := (c9_combine_weights 3 5 1 (-1)).1 (by norm_num)
  have h3 := (c9_combine_weights (-2) 5 1 2).2.2.2.1 (by norm_num) (by norm_num)
  have h4 := (c9_combine_weights (-2) 5 1 0).2.1 (by norm_num)
  refine ⟨?_, h2, ?_, h4⟩
  · rw [h1]; norm_num
  · rw [h3]; norm_num

/-- C1: `LogbookSolver.__init__` can never complete — `objective.add_objective`
reads `solver.preferences`, which is not among the attributes `__init__`
assigns — so construction always raises; for every input whose
constraint attachment succeeds, the raised exception is the
AttributeError for `preferences`, and the CLI `main` prints the ERROR
document (success false, no assignments) and exits with code 1. -/
theorem c1_init_always_raises :
    (∀ inp : Input, ∃ e, logbookSolverInit inp = .error e) ∧
    (∀ inp ctx cs, mkCtx inp = .ok ctx → addAllConstraints ctx = .ok cs →
      logbookSolverInit inp = .error (.attributeError "preferences") ∧
      mainOutcome inp = some attrErrorCli) := by
  have hobj : addObjectiveStep = .error (.attributeError "preferences") := rfl
  constructor
  · intro inp
    cases hc : mkCtx inp with
    | error e => exact ⟨e, by simp only [logbookSolverInit, hc]⟩
    | ok ctx =>
      cases ha : addAllConstraints ctx with
      | error e => exact ⟨e, by simp only [logbookSolverInit, hc, ha]⟩
      | ok cs =>
        exact ⟨.attributeError "preferences", by simp only [logbookSolverInit, hc, ha, hobj]⟩
  · intro inp ctx cs hc ha
    have hinit : logbookSolverInit inp = .error (.attributeError "preferences") := by
      simp only [logbookSolverInit, hc, ha, hobj]
    refine ⟨hinit, ?_⟩
    simp only [mainOutcome, hinit]
    rfl

/-- C1 witness: the empty input document builds its (empty) constraint
set successfully and construction still fails with the AttributeError;
the CLI reports ERROR with exit code 1. -/
theorem c1_init_witness :
    logbookSolverInit inpEmpty = .error (.attributeError "preferences") ∧
      mainOutcome inpEmpty = some attrErrorCli :=
  c1_init_always_raises.2 inpEmpty (ctxOf inpEmpty 30) [] rfl rfl

/-- C2 counterexample: crew A works 8:00-10:30 on a 60-minute grid, so
the claimed shift window (floor start 8 up to ceiling end 11) contains
slot 10; variables exist in slot 10, yet the schedule that leaves slot
10 entirely empty is feasible — `_one_task_per_slot` iterates only up to
the floor of the shift end, so no exactly-one constraint covers slot 10. -/
theorem c2_partial_slot_counterexample :
    mkCtx inpC2 = .ok (ctxOf inpC2 60) ∧
    feasibleB inpC2 solC2 = true ∧
    shiftStartSlotV (ctxOf inpC2 60) crewC2 = 8 ∧
    shiftEndSlotV (ctxOf inpC2 60) crewC2 = 11 ∧
    hasVar (ctxOf inpC2 60) ("A", 10, "PRODUCT") = true ∧
    ((rolesList inpC2).filter (fun r => solAssign solC2 ("A", 10, r))).length = 0 := by
  exact ⟨rfl, by decide, by decide, by decide, by decide, by decide⟩

/-- C3: `_consecutive_slots` fails to forbid gaps.  ORDER_WRITER is
flagged `slotsMustBeConsecutive`; crew A holds variables for it in all
four shift slots 8-11, yet assigning it in slots 8 and 10 only (PRODUCT
in between) satisfies every attached constraint: the builder adds
`var_i + var_j ≤ 1` only for SUCCESSIVE entries of the variable-slot
list, and here every successive pair is adjacent, so it adds nothing.
The all-pairs constraint set described by the spec is non-empty and is
violated by this schedule. -/
theorem c3_consecutive_gap_bug :
    mkCtx inpC3 = .ok (ctxOf inpC3 60) ∧
    ((roleMetaFor inpC3 "ORDER_WRITER").bind (fun mt => mt.slotsMustBeConsecutive)).getD false
      = true ∧
    feasibleB inpC3 solC3 = true ∧
    solAssign solC3 ("A", 8, "ORDER_WRITER") = true ∧
    solAssign solC3 ("A", 9, "ORDER_WRITER") = false ∧
    solAssign solC3 ("A", 10, "ORDER_WRITER") = true ∧
    hasVar (ctxOf inpC3 60) ("A", 9, "ORDER_WRITER") = true ∧
    consecConstraints (ctxOf inpC3 60) = [] ∧
    specConsecutivePairConstraints (ctxOf inpC3 60) ≠ [] ∧
    satAll (solAssign solC3) (specConsecutivePairConstraints (ctxOf inpC3 60)) = false := by
  exact ⟨rfl, by decide, by decide, by decide, by decide, by decide, by decide, by decide,
    by decide, by decide⟩

/-- C4: `_block_size_snap` does not make run lengths multiples of the
block size.  STOCK has block size 2 and crew A works three slots
(8-10); the builder only snaps the full window {8,9} and leaves the
trailing slot 10 unconstrained, so assigning STOCK in all three slots —
one contiguous run of odd length 3 — is feasible, violating the claimed
block invariant. -/
theorem c4_block_tail_bug :
    mkCtx inpC4 = .ok (ctxOf inpC4 60) ∧
    blockSizeOf inpC4 "STOCK" = 2 ∧
    feasibleB inpC4 solC4 = true ∧
    shiftStartSlotF (ctxOf inpC4 60) crewC4 = 8 ∧
    shiftEndSlotF (ctxOf inpC4 60) crewC4 = 11 ∧
    (List.range (ctxOf inpC4 60).numSlots).filter (fun s => solAssign solC4 ("A", s, "STOCK"))
      = [8, 9, 10] ∧
    runsAlignedMultiples [8, 9, 10] 2 8 = false := by
  exact ⟨rfl, by decide, by decide, by decide, by decide, by decide, by decide⟩

/-- C6 counterexample: crew A cannot break and works 8:00-10:30 on a
60-minute grid.  `_meal_breaks` pins the break role only over the
floor-rounded shift slots 8-9, so the MEAL_BREAK variable of the final
partial slot 10 — which starts at 10:00, inside the shift — is not
pinned, and a schedule giving this no-break crew a break there is
feasible. -/
theorem c6_partial_slot_counterexample :
    mkCtx inpC6 = .ok (ctxOf inpC6 60) ∧
    crewC6.canBreak = some false ∧
    feasibleB inpC6 solC6 = true ∧
    solAssign solC6 ("A", 10, "MEAL_BREAK") = true ∧
    crewC6.shiftStartMin ≤ slotStartMinute (ctxOf inpC6 60) 10 ∧
    slotStartMinute (ctxOf inpC6 60) 10 < crewC6.shiftEndMin := by
  exact ⟨rfl, rfl, by decide, by decide, by decide, by decide⟩

/-- C8 counterexample: GHOST is declared universal in the role metadata
but belongs to no crew member's role list; at slot 8 of crew A's shift
every condition the claim lists holds (slot in window, role universal,
slot inside store hours, not the register role), yet no variable is
created, because GHOST never enters the model's active role set. -/
theorem c8_metadata_universal_counterexample :
    mkCtx inpC8 = .ok (ctxOf inpC8 60) ∧
    isUniversalRole inpC8 "GHOST" = true ∧
    crewById inpC8 "A" = some crewC8 ∧
    shiftStartSlotV (ctxOf inpC8 60) crewC8 ≤ 8 ∧
    8 < shiftEndSlotV (ctxOf inpC8 60) crewC8 ∧
    insideStoreHours (ctxOf inpC8 60) 8 = true ∧
    ("GHOST" = "REGISTER" → insideRegWindow (ctxOf inpC8 60) 8 = true) ∧
    hasVar (ctxOf inpC8 60) ("A", 8, "GHOST") = false := by
  exact ⟨rfl, by decide, rfl, by decide, by decide, by decide, by decide, by decide⟩

/-- C8 (amended): a decision variable `x[c,k,r]` exists if and only if
role r belongs to the model's active role set (some crew member's role
list or the default universal roles) AND the four claimed conditions
hold: k lies in c's shift window (floor of shift start up to ceiling of
shift end clamped to the slot count); r is universal or among c's roles;
the slot starts inside store hours or the role allows outside hours;
and, when r is the register role, the slot starts inside the register
sub-window.  Absence of a variable acts as a pin of 0. -/
theorem c8_variable_iff :
    ∀ inp ctx cid k r, mkCtx inp = .ok ctx →
      (hasVar ctx (cid, k, r) = true ↔
        ∃ c, crewById inp cid = some c ∧
          shiftStartSlotV ctx c ≤ k ∧ k < shiftEndSlotV ctx c ∧
          r ∈ rolesList inp ∧
          (isUniversalRole inp r = true ∨ r ∈ crewRolesOf c) ∧
          (insideStoreHours ctx k = true ∨ allowsOutsideHours inp r = true) ∧
          (r = "REGISTER" → insideRegWindow ctx k = true)) := by
  intro inp ctx cid k r h
  have hinp := mkCtx_inp h
  subst hinp
  rw [hasVar, decide_eq_true_eq, mem_xKeys_iff]
  constructor
  · rintro ⟨c, hc, h1, h2, h3, h4⟩
    exact ⟨c, hc, h1, h2, h3, varGuard_iff.mp h4⟩
  · rintro ⟨c, hc, h1, h2, h3, h4⟩
    exact ⟨c, hc, h1, h2, h3, varGuard_iff.mpr h4⟩

/-- C8 witness: applying the characterization at a concrete input shows
crew A holds a PRODUCT variable in slot 8. -/
theorem c8_variable_witness : hasVar (ctxOf inpC8W 60) ("A", 8, "PRODUCT") = true :=
  (c8_variable_iff inpC8W (ctxOf inpC8W 60) "A" 8 "PRODUCT" rfl).mpr
    ⟨crewC8W, rfl, by decide, by decide, by decide, by decide, by decide, by decide⟩

/-- C5: for every hourly requirement and every role among REGISTER,
PRODUCT, PARKING_HELM with a positive required count, whenever
constraint attachment succeeds the model contains, for EVERY slot of
that hour, the per-slot equality `Σ_c x[c,k,r] = q` over the crew
variables of that slot (and that variable list is non-empty); and if
some slot of the hour has no variable for the role, constraint
attachment raises an error instead. -/
theorem c5_hourly_per_slot :
    ∀ inp ctx, mkCtx inp = .ok ctx →
      (∀ cs, addAllConstraints ctx = .ok cs →
        ∀ req ∈ inp.hourlyRequirements, ∀ p ∈ reqRoleDemands req,
          ∀ slot ∈ hourSlots ctx req.hour,
            hourlyRoleVars ctx slot p.1 ≠ [] ∧
            Constr.eqSum (hourlyRoleVars ctx slot p.1) (p.2 : Int) ∈ cs) ∧
      (∀ req ∈ inp.hourlyRequirements, ∀ p ∈ reqRoleDemands req,
        ∀ slot ∈ hourSlots ctx req.hour,
          hourlyRoleVars ctx slot p.1 = [] → ∃ e, addAllConstraints ctx = .error e) := by
  intro inp ctx h
  have hinp := mkCtx_inp h
  subst hinp
  constructor
  · intro cs hcs req hreq p hp slot hslot
    obtain ⟨c3, c5, c6, c8, h3, _, _, _, hcseq⟩ := addAll_ok_parts hcs
    have hres := hourly_ok_slot h3 req hreq p hp slot hslot
    refine ⟨hres.1, ?_⟩
    subst hcseq
    simp only [List.mem_append]
    exact Or.inl (Or.inl (Or.inl (Or.inl (Or.inl (Or.inl (Or.inl (Or.inr hres.2)))))))
  · intro req hreq p hp slot hslot hempty
    cases ha : addAllConstraints ctx with
    | error e => exact ⟨e, rfl⟩
    | ok cs =>
      obtain ⟨c3, _, _, _, h3, _, _, _, _⟩ := addAll_ok_parts ha
      exact absurd hempty (hourly_ok_slot h3 req hreq p hp slot hslot).1

/-- C2 (amended): `_one_task_per_slot` attaches the exactly-one
constraint for every slot of the FLOOR-rounded shift window
[shiftStartMin // m, shiftEndMin // m) that has at least one variable
(not for the final partial slot of the ceiling window), and in every
feasible schedule of the built model exactly one role is assigned in
each such slot. -/
theorem c2_one_task_per_floor_slot :
    ∀ inp ctx, mkCtx inp = .ok ctx →
      ∀ cs, addAllConstraints ctx = .ok cs →
        ∀ cid c slot, crewById inp cid = some c →
          shiftStartSlotF ctx c ≤ slot → slot < shiftEndSlotF ctx c →
          oneTaskVars ctx cid slot ≠ [] →
          Constr.eqSum (oneTaskVars ctx cid slot) 1 ∈ cs ∧
          (∀ sol : List VKey, (∀ k ∈ sol, hasVar ctx k = true) →
            satAll (solAssign sol) cs = true →
            ((rolesList inp).filter (fun r => solAssign sol (cid, slot, r))).length = 1) := by
  intro inp ctx h cs hcs cid c slot hc h1 h2 h3
  have hinp := mkCtx_inp h
  subst hinp
  have hmem : Constr.eqSum (oneTaskVars ctx cid slot) 1 ∈ cs := by
    obtain ⟨c3, c5, c6, c8, _, _, _, _, hcseq⟩ := addAll_ok_parts hcs
    subst hcseq
    simp only [List.mem_append]
    exact Or.inl (Or.inl (Or.inl (Or.inl (Or.inl (Or.inl (Or.inl (Or.inl
      (Or.inl (oneTask_mem hc h1 h2 h3)))))))))
  refine ⟨hmem, ?_⟩
  intro sol hsol hsat
  have hsatc := satAll_mem hsat hmem
  simp only [satC, decide_eq_true_eq] at hsatc
  unfold oneTaskVars at hsatc
  rw [sumVal_map_countP] at hsatc
  have hcount :
      ((rolesList ctx.inp).filter (fun r => hasVar ctx (cid, slot, r))).countP
        (fun r => solAssign sol (cid, slot, r)) = 1 := by
    exact_mod_cast hsatc
  rw [List.countP_filter] at hcount
  rw [← List.countP_eq_length_filter]
  rw [← hcount]
  apply List.countP_congr
  intro r _
  by_cases hs : solAssign sol (cid, slot, r) = true
  · have hv : hasVar ctx (cid, slot, r) = true := hsol _ (List.elem_iff.mp hs)
    rw [hs, hv]
    rfl
  · rw [Bool.not_eq_true] at hs
    rw [hs]
    rfl

/-- C2 amended witness: for the crew on 8:00-10:00, slot 8 carries the
exactly-one constraint, and the concrete feasible schedule assigns
exactly one role there. -/
theorem c2_one_task_witness :
    Constr.eqSum (oneTaskVars (ctxOf inpC2W 60) "A" 8) 1 ∈ okConstraintsOf (ctxOf inpC2W 60) ∧
      ((rolesList inpC2W).filter (fun r => solAssign solC2W ("A", 8, r))).length = 1 := by
  have happ := c2_one_task_per_floor_slot inpC2W (ctxOf inpC2W 60) rfl
    (okConstraintsOf (ctxOf inpC2W 60)) rfl "A" crewC2W 8 rfl (by decide) (by decide) (by decide)
  exact ⟨happ.1, happ.2 solC2W (by decide) (by decide)⟩

/-- C5 witness: the model of the concrete input with one crew member on
8:00-9:00 and an hourly REGISTER demand of 1 at hour 8 contains the
per-slot equality for slot 8 over a non-empty variable list. -/
theorem c5_hourly_witness :
    hourlyRoleVars (ctxOf inpC5W 60) 8 "REGISTER" ≠ [] ∧
      Constr.eqSum (hourlyRoleVars (ctxOf inpC5W 60) 8 "REGISTER") 1 ∈
        okConstraintsOf (ctxOf inpC5W 60) :=
  (c5_hourly_per_slot inpC5W (ctxOf inpC5W 60) rfl).1
    (okConstraintsOf (ctxOf inpC5W 60)) rfl
    { hour := 8, requiredRegister := 1 } (by decide)
    ("REGISTER", 1) (by decide) 8 (by decide)

/-- C6 (amended): meal-break handling with the first declared active
break role, relative to the FLOOR-rounded shift window
[shiftStartMin // m, shiftEndMin // m) (the final partial slot of the
shift, when shiftEndMin is not on the slot grid, is not pinned): a crew
that cannot break, or whose shift is shorter than the minimum, has the
break role pinned to 0 at every floor-window slot in every feasible
schedule; otherwise exactly one break slot is forced inside the window
[start + startOffset // m, min(start + max(startOffset, endOffset) // m,
end − 1)] and the break role is 0 at every floor-window slot outside it;
and when that window is empty or holds no break variable, `_meal_breaks`
raises an error. -/
theorem c6_meal_breaks :
    ∀ inp ctx, mkCtx inp = .ok ctx →
    ∀ br rest, activeBreakRoles inp = br :: rest →
    ∀ cid c, crewById inp cid = some c →
      (((c.canBreak.getD true) = false ∨
          shiftEndSlotF ctx c - shiftStartSlotF ctx c < minShiftSlotsForBreak ctx) →
        ∀ cs, addAllConstraints ctx = .ok cs →
        ∀ sol, (∀ k ∈ sol, hasVar ctx k = true) → satAll (solAssign sol) cs = true →
        ∀ slot, shiftStartSlotF ctx c ≤ slot → slot < shiftEndSlotF ctx c →
          solAssign sol (cid, slot, br) = false) ∧
      ((c.canBreak.getD true) = true →
        minShiftSlotsForBreak ctx ≤ shiftEndSlotF ctx c - shiftStartSlotF ctx c →
        ∀ cs, addAllConstraints ctx = .ok cs →
        ∀ earliest latest,
          earliest = (breakWindowForShift ctx (shiftStartSlotF ctx c) (shiftEndSlotF ctx c)).1 →
          latest = (if shiftEndSlotF ctx c ≤
              (breakWindowForShift ctx (shiftStartSlotF ctx c) (shiftEndSlotF ctx c)).2 then
              shiftEndSlotF ctx c - 1
            else (breakWindowForShift ctx (shiftStartSlotF ctx c) (shiftEndSlotF ctx c)).2) →
          Constr.eqSum (windowBreakVars ctx cid br earliest latest) 1 ∈ cs ∧
          (∀ sol, (∀ k ∈ sol, hasVar ctx k = true) → satAll (solAssign sol) cs = true →
            (List.range' earliest (latest + 1 - earliest)).countP
              (fun slot => solAssign sol (cid, slot, br)) = 1 ∧
            (∀ slot, shiftStartSlotF ctx c ≤ slot → slot < shiftEndSlotF ctx c →
              (slot < earliest ∨ latest < slot) → solAssign sol (cid, slot, br) = false))) ∧
      ((c.canBreak.getD true) = true →
        minShiftSlotsForBreak ctx ≤ shiftEndSlotF ctx c - shiftStartSlotF ctx c →
        ∀ earliest latest,
          earliest = (breakWindowForShift ctx (shiftStartSlotF ctx c) (shiftEndSlotF ctx c)).1 →
          latest = (if shiftEndSlotF ctx c ≤
              (breakWindowForShift ctx (shiftStartSlotF ctx c) (shiftEndSlotF ctx c)).2 then
              shiftEndSlotF ctx c - 1
            else (breakWindowForShift ctx (shiftStartSlotF ctx c) (shiftEndSlotF ctx c)).2) →
          (latest < earliest ∨ windowBreakVars ctx cid br earliest latest = []) →
          ∃ e, mealConstraints ctx = .error e) := by
  intro inp ctx hmk br rest hbr cid c hc
  have hinp := mkCtx_inp hmk
  subst hinp
  refine ⟨?_, ?_, ?_⟩
  · intro hguard cs hcs sol hsol hsat slot h1 h2
    obtain ⟨c8, h8, hsub8⟩ := addAll_meal_sub hcs
    unfold mealConstraints at h8
    rw [hbr] at h8
    obtain ⟨csc, hcrew, hsubc⟩ := collectE_ok_sub _ _ _ h8 cid (crewById_mem hc).1
    have hcsc : csc = breakPinAll ctx cid br c := by
      unfold mealForCrew at hcrew
      simp only [hc] at hcrew
      rcases hguard with hg | hg
      · rw [if_pos hg] at hcrew
        injection hcrew with h
        exact h.symm
      · by_cases hcb : (c.canBreak.getD true) = false
        · rw [if_pos hcb] at hcrew
          injection hcrew with h
          exact h.symm
        · rw [if_neg hcb, if_pos hg] at hcrew
          injection hcrew with h
          exact h.symm
    subst hcsc
    apply sol_false_of_pin_sub hsol hsat
    intro hv
    exact hsub8 _ (hsubc _ (breakPinAll_mem h1 h2 hv))
  · intro hcan hlong cs hcs earliest latest he hl
    obtain ⟨c8, h8, hsub8⟩ := addAll_meal_sub hcs
    unfold mealConstraints at h8
    rw [hbr] at h8
    obtain ⟨csc, hcrew, hsubc⟩ := collectE_ok_sub _ _ _ h8 cid (crewById_mem hc).1
    have hcb : ¬ ((c.canBreak.getD true) = false) := by rw [hcan]; simp
    have hns : ¬ (shiftEndSlotF ctx c - shiftStartSlotF ctx c < minShiftSlotsForBreak ctx) := by
      omega
    unfold mealForCrew at hcrew
    simp only [hc] at hcrew
    rw [if_neg hcb, if_neg hns, ← he, ← hl] at hcrew
    by_cases hlt : latest < earliest
    · rw [if_pos hlt] at hcrew
      cases hcrew
    · rw [if_neg hlt] at hcrew
      by_cases hbv : (windowBreakVars ctx cid br earliest latest).isEmpty = true
      · rw [if_pos hbv] at hcrew
        cases hcrew
      · rw [if_neg hbv] at hcrew
        injection hcrew with hcrew
        subst hcrew
        have hmem : Constr.eqSum (windowBreakVars ctx cid br earliest latest) 1 ∈ cs :=
          hsub8 _ (hsubc _ (List.mem_append_left _ (List.mem_singleton_self _)))
        refine ⟨hmem, ?_⟩
        intro sol hsol hsat
        have hsatc := satAll_mem hsat hmem
        simp only [satC, decide_eq_true_eq] at hsatc
        unfold windowBreakVars at hsatc
        rw [sumVal_map_countP] at hsatc
        have hcount : ((List.range' earliest (latest + 1 - earliest)).filter
            (fun s => hasVar ctx (cid, s, br))).countP
              (fun s => solAssign sol (cid, s, br)) = 1 := by
          exact_mod_cast hsatc
        rw [countP_assign_filter_hasVar hsol] at hcount
        refine ⟨hcount, ?_⟩
        intro slot hs1 hs2 hout
        apply sol_false_of_pin_sub hsol hsat
        intro hv
        exact hsub8 _ (hsubc _ (List.mem_append_right _ (breakPinOutside_mem hs1 hs2 hout hv)))
  · intro hcan hlong earliest latest he hl hbad
    cases hm : mealConstraints ctx with
    | error e => exact ⟨e, rfl⟩
    | ok c8 =>
      unfold mealConstraints at hm
      rw [hbr] at hm
      obtain ⟨csc, hcrew, _⟩ := collectE_ok_sub _ _ _ hm cid (crewById_mem hc).1
      have hcb : ¬ ((c.canBreak.getD true) = false) := by rw [hcan]; simp
      have hns : ¬ (shiftEndSlotF ctx c - shiftStartSlotF ctx c < minShiftSlotsForBreak ctx) := by
        omega
      unfold mealForCrew at hcrew
      simp only [hc] at hcrew
      rw [if_neg hcb, if_neg hns, ← he, ← hl] at hcrew
      by_cases hlt : latest < earliest
      · rw [if_pos hlt] at hcrew
        cases hcrew
      · rw [if_neg hlt] at hcrew
        have hbv : (windowBreakVars ctx cid br earliest latest).isEmpty = true := by
          rcases hbad with h | h
          · omega
          · rw [List.isEmpty_iff]
            exact h
        rw [if_pos hbv] at hcrew
        cases hcrew

/-- C6 witness: for the single crew member on 8:00-20:00, the effective
break window is slots 11-12; the model forces exactly one break there,
and the concrete feasible schedule with MEAL_BREAK in slot 11 realises
it; the schedule also has no break at the out-of-window slot 8. -/
theorem c6_meal_witness :
    Constr.eqSum (windowBreakVars (ctxOf inpC6W 60) "A" "MEAL_BREAK" 11 12) 1 ∈
      okConstraintsOf (ctxOf inpC6W 60) ∧
    (List.range' 11 (12 + 1 - 11)).countP
      (fun slot => solAssign solC6W ("A", slot, "MEAL_BREAK")) = 1 ∧
    solAssign solC6W ("A", 8, "MEAL_BREAK") = false := by
  have happ := (c6_meal_breaks inpC6W (ctxOf inpC6W 60) rfl "MEAL_BREAK" [] (by decide)
    "A" crewC6W rfl).2.1 (by decide) (by decide) (okConstraintsOf (ctxOf inpC6W 60)) rfl
    11 12 (by decide) (by decide)
  have hsem := happ.2 solC6W (by decide) (by decide)
  exact ⟨happ.1, hsem.1, hsem.2 8 (by decide) (by decide) (by decide)⟩

/-- C10: `detect_violations` always returns a non-empty list; when every
check passes it returns exactly the single generic
cause-not-determinable message; an hourly-demand check emits its (one)
message exactly when the hour has slots and the minimum over the hour's
slots of the number of crew holding a variable for the role is below
the required count; and every individual check contributes at most one
string. -/
theorem c10_detect_violations :
    ∀ ctx : Ctx,
      detectViolations ctx ≠ [] ∧
      (check1Violations ctx = [] → check2Violations ctx = [] → check3Violations ctx = [] →
        check4Violations ctx = [] → detectViolations ctx = [genericInfeasibleMsg]) ∧
      (∀ req ∈ ctx.inp.hourlyRequirements, ∀ p ∈ reqRoleDemands req,
        (appendIfInsufficient ctx req.hour (hourSlots ctx req.hour) p.1 p.2 ≠ [] ↔
          hourSlots ctx req.hour ≠ [] ∧
          ∃ a, ((hourSlots ctx req.hour).map (fun s => availCount ctx s p.1)).min? = some a ∧
            a < p.2)) ∧
      (∀ hour hourSlotsL role required,
        (appendIfInsufficient ctx hour hourSlotsL role required).length ≤ 1) ∧
      (∀ req, (check2ForReq ctx req).length ≤ 1) ∧
      (∀ w hour slot, (check3ForSlot ctx w hour slot).length ≤ 1) ∧
      (∀ br cid, (check4ForCrew ctx br cid).length ≤ 1) := by
  intro ctx
  refine ⟨?_, ?_, ?_, ?_, ?_, ?_, ?_⟩
  · unfold detectViolations
    by_cases he : (check1Violations ctx ++ check2Violations ctx ++ check3Violations ctx ++
        check4Violations ctx).isEmpty = true
    · rw [if_pos he]
      simp
    · rw [if_neg he]
      rw [List.isEmpty_iff] at he
      exact he
  · intro h1 h2 h3 h4
    unfold detectViolations
    rw [h1, h2, h3, h4]
    rfl
  · intro req _ p _
    unfold appendIfInsufficient
    by_cases he : (hourSlots ctx req.hour).isEmpty = true
    · rw [if_pos he]
      rw [List.isEmpty_iff] at he
      simp [he]
    · rw [if_neg he]
      rw [List.isEmpty_iff] at he
      cases hmin : ((hourSlots ctx req.hour).map (fun s => availCount ctx s p.1)).min? with
      | none =>
        have : (hourSlots ctx req.hour).map (fun s => availCount ctx s p.1) = [] :=
          List.min?_eq_none_iff.mp hmin
        rw [List.map_eq_nil_iff] at this
        exact absurd this he
      | some a =>
        by_cases hlt : a < p.2
        · simp [hlt, he]
        · simp [hlt, he]
  · intro hour hourSlotsL role required
    unfold appendIfInsufficient
    split
    · simp
    · split
      · simp
      · split <;> simp
  · intro req
    unfold check2ForReq
    dsimp only
    split <;> simp
  · intro w hour slot
    unfold check3ForSlot
    dsimp only
    split <;> simp
  · intro br cid
    unfold check4ForCrew
    cases crewById ctx.inp cid with
    | none => simp
    | some c =>
      dsimp only
      split
      · simp
      · split
        · simp
        · split <;> simp

/-- C10 witness: for the input whose hour-8 demand of two REGISTER crew
exceeds the single available crew member, the diagnostics are non-empty
and the hourly check fires; for a satisfiable concrete input every check
passes and exactly the generic message is returned. -/
theorem c10_detect_witness :
    detectViolations (ctxOf inpC10W 60) ≠ [] ∧
      detectViolations (ctxOf inpC2W 60) = [genericInfeasibleMsg] ∧
      appendIfInsufficient (ctxOf inpC10W 60) 8 (hourSlots (ctxOf inpC10W 60) 8) "REGISTER" 2
        ≠ [] := by
  refine ⟨(c10_detect_violations (ctxOf inpC10W 60)).1, ?_, ?_⟩
  · exact (c10_detect_violations (ctxOf inpC2W 60)).2.1 (by decide) (by decide) (by decide)
      (by decide)
  · exact ((c10_detect_violations (ctxOf inpC10W 60)).2.2.1
      { hour := 8, requiredRegister := 2 } (by decide) ("REGISTER", 2) (by decide)).mpr
      ⟨by decide, 1, by decide, by decide⟩

end LB
